import Mathlib

/-!
Verification development for the N-up PDF page-composition engine
(source file `2up.py`).

The engine is embedded shallowly over the rationals:
all PDF point coordinates, scales and offsets become `ℚ`
(the Python floats are exact on the algebraic identities studied here),
a source page becomes a record of media-box dimensions plus an optional
integer rotation flag (`none` models absent or malformed rotation
metadata, which the code's `getattr(page, "rotation", 0) or 0` turns
into 0), and pypdf's `Transformation` becomes the ctm record
`(a, b, c, d, e, f)` with its `rotate` / `scale` / `translate`
operations (right-multiplication of the 3x3 row-vector matrices,
exactly as `pypdf` implements them; the trigonometric values are exact
for the right-angle rotations the data model admits).
-/

set_option autoImplicit false

/-- One source page: media-box width and height in points, and the
declared rotation flag. `none` models rotation metadata that is absent
or malformed (the code falls back to 0 for it). -/
structure SrcPage where
  mediaW : ℚ
  mediaH : ℚ
  rot : Option ℤ
deriving DecidableEq

/-- A source document: its ordered page list (`PdfReader.pages`). -/
structure Source where
  pages : List SrcPage
deriving DecidableEq

/-- A slot rectangle `(x, y, w, h)` on the output sheet. -/
structure Slot where
  x : ℚ
  y : ℚ
  w : ℚ
  h : ℚ
deriving DecidableEq

/-- `PT_PER_IN = 72.0`. -/
def PT_PER_IN : ℚ := 72

/-- `SHEET_SIZES`: named sheet presets, in points, as stored in the
source (portrait order). Unknown names give `none` (a missing
dictionary key). -/
def SHEET_SIZES (name : String) : Option (ℚ × ℚ) :=
  if name = "letter" then some (8.5 * PT_PER_IN, 11 * PT_PER_IN)
  else if name = "a4" then some (595, 842)
  else none

/-- `compute_upright_size(page)`: returns
`(visible_width, visible_height, rotation_deg)`.
`rot = getattr(page, "rotation", 0) or 0` maps absent/malformed (and
zero) metadata to 0; a 90 or 270 rotation swaps width and height. -/
def compute_upright_size (page : SrcPage) : ℚ × ℚ × ℤ :=
  let rot : ℤ := match page.rot with
    | none => 0
    | some r => r
  if rot = 90 ∨ rot = 270 then (page.mediaH, page.mediaW, rot)
  else (page.mediaW, page.mediaH, rot)

/-- `base_scale = min(slot_w / src_w, slot_h / src_h)` (line 209). -/
def base_scale (slot_w slot_h src_w src_h : ℚ) : ℚ :=
  min (slot_w / src_w) (slot_h / src_h)

/-- Lines 203 and 212-214 of `place_page`: normalise `zoom <= 0` to 1,
multiply onto the base scale, and clamp the result so it never exceeds
the base scale. -/
def effective_scale (base zoom : ℚ) : ℚ :=
  let z := if zoom ≤ 0 then 1 else zoom
  let s := base * z
  if s > base then base else s

/-- Line 226: the horizontal offset, always centred in the slot. -/
def x_offset_of (slot_x slot_w src_w scale : ℚ) : ℚ :=
  slot_x + (slot_w - src_w * scale) / 2

/-- Lines 217-223: the vertical offset under the alignment policy;
any token other than `"top"` and `"bottom"` falls to the centre case. -/
def y_offset_of (align : String) (slot_y slot_h src_h scale : ℚ) : ℚ :=
  if align = "top" then slot_y + (slot_h - src_h * scale)
  else if align = "bottom" then slot_y
  else slot_y + (slot_h - src_h * scale) / 2

/-- pypdf `Transformation`: the ctm `(a, b, c, d, e, f)` standing for
the matrix `((a,b,0),(c,d,0),(e,f,1))` acting on row vectors. -/
structure Transformation where
  a : ℚ
  b : ℚ
  c : ℚ
  d : ℚ
  e : ℚ
  f : ℚ
deriving DecidableEq

/-- The identity ctm `(1, 0, 0, 1, 0, 0)`. -/
def Transformation.ident : Transformation := ⟨1, 0, 0, 1, 0, 0⟩

/-- pypdf `matrix_multiply` restricted to matrices of ctm shape:
`m.mul n` is the product `m * n` (so `n` acts after `m` on row
vectors). -/
def Transformation.mul (m n : Transformation) : Transformation :=
  ⟨m.a * n.a + m.b * n.c,
   m.a * n.b + m.b * n.d,
   m.c * n.a + m.d * n.c,
   m.c * n.b + m.d * n.d,
   m.e * n.a + m.f * n.c + n.e,
   m.e * n.b + m.f * n.d + n.f⟩

/-- Exact cosine of an integer number of degrees, for the right angles
the page data model admits (other angles are outside the modelled
domain). -/
def cosDeg (r : ℤ) : ℚ :=
  let m := r.emod 360
  if m = 0 then 1
  else if m = 90 then 0
  else if m = 180 then -1
  else if m = 270 then 0
  else 0

/-- Exact sine of an integer number of degrees, for the right angles
the page data model admits. -/
def sinDeg (r : ℤ) : ℚ :=
  let m := r.emod 360
  if m = 0 then 0
  else if m = 90 then 1
  else if m = 180 then 0
  else if m = 270 then -1
  else 0

/-- The pure rotation ctm `((cos, sin, 0), (-sin, cos, 0), (0,0,1))`
that pypdf `Transformation.rotate` builds for an angle in degrees. -/
def rotationM (r : ℤ) : Transformation :=
  ⟨cosDeg r, sinDeg r, -(sinDeg r), cosDeg r, 0, 0⟩

/-- The pure uniform-scaling ctm pypdf builds for `scale(s)`. -/
def scaleM (s : ℚ) : Transformation :=
  ⟨s, 0, 0, s, 0, 0⟩

/-- The pure translation ctm `((1,0,0),(0,1,0),(tx,ty,1))`. -/
def translationM (tx ty : ℚ) : Transformation :=
  ⟨1, 0, 0, 1, tx, ty⟩

/-- pypdf `Transformation.rotate`: post-multiply by the rotation ctm. -/
def Transformation.rotate (t : Transformation) (angle : ℤ) : Transformation :=
  t.mul (rotationM angle)

/-- pypdf `Transformation.scale` with a single argument
(`sx = sy = s`): post-multiply by the scaling ctm. -/
def Transformation.scale (t : Transformation) (s : ℚ) : Transformation :=
  t.mul (scaleM s)

/-- pypdf `Transformation.translate`: add `(tx, ty)` to the ctm's
translation entries (equal to post-multiplying by `translationM`). -/
def Transformation.translate (t : Transformation) (tx ty : ℚ) : Transformation :=
  ⟨t.a, t.b, t.c, t.d, t.e + tx, t.f + ty⟩

/-- Lines 228-232 of `place_page`: start from the identity, rotate by
`-rot` only when `rot` is nonzero (Python truthiness of the int), then
scale, then translate. -/
def place_transform (rot : ℤ) (scale x_offset y_offset : ℚ) : Transformation :=
  let t := Transformation.ident
  let t := if rot ≠ 0 then t.rotate (-rot) else t
  let t := t.scale scale
  t.translate x_offset y_offset

/-- The placement `place_page` computes for one source page in one
slot: the effective scale, the two offsets, and the transform handed
to `merge_transformed_page`. -/
structure Placement where
  scale : ℚ
  xOffset : ℚ
  yOffset : ℚ
  transform : Transformation
deriving DecidableEq

/-- `place_page(new_page, src_page, slot_x, slot_y, slot_w, slot_h,
zoom, align)`, as the placement data it derives (the actual content
merge is the document library's job). -/
def place_page (slot_x slot_y slot_w slot_h zoom : ℚ) (align : String)
    (page : SrcPage) : Placement :=
  let u := compute_upright_size page
  let src_w := u.1
  let src_h := u.2.1
  let rot := u.2.2
  let bs := base_scale slot_w slot_h src_w src_h
  let scale := effective_scale bs zoom
  let y_offset := y_offset_of align slot_y slot_h src_h scale
  let x_offset := x_offset_of slot_x slot_w src_w scale
  ⟨scale, x_offset, y_offset, place_transform rot scale x_offset y_offset⟩

/-- Python `min(l)` over a list of naturals: `none` on the empty list
(where Python raises `ValueError`), otherwise the left fold of binary
`min` from the first element. -/
def pyMin (l : List ℕ) : Option ℕ :=
  match l with
  | [] => none
  | a :: rest => some (rest.foldl min a)

/-- Python `max(l)` over a list of naturals: `none` on the empty list,
otherwise the left fold of binary `max` from the first element. -/
def pyMax (l : List ℕ) : Option ℕ :=
  match l with
  | [] => none
  | a :: rest => some (rest.foldl max a)

/-- Lines 277-281 (and 342-346): the number of output sheets from the
per-source page counts; `min` under the `"shortest"` stop policy and
`max` under any other token (the CLI only offers `"longest"`). -/
def total_sheets (stop_mode : String) (counts : List ℕ) : Option ℕ :=
  if stop_mode = "shortest" then pyMin counts else pyMax counts

/-- Lines 286 and 351: the source index supplying a slot,
`min(slot_idx, len(sources) - 1)`. -/
def assigned_source_index (slot_idx source_count : ℕ) : ℕ :=
  min slot_idx (source_count - 1)

/-- Lines 285-292 (one slot of one sheet): pick the assigned source;
if it still has page `i`, place it into the slot, else leave the slot
blank. -/
def fill_slot (sources : List Source) (i slot_idx : ℕ) (s : Slot)
    (zoom : ℚ) (align : String) : Option Placement :=
  let reader := sources.getD (assigned_source_index slot_idx sources.length) ⟨[]⟩
  (reader.pages[i]?).map (fun p => place_page s.x s.y s.w s.h zoom align p)

/-- The sheet loop shared by `build_writer_2up` and `build_writer_4up`
(lines 277-293 and 342-358): resolve the sheet total from the stop
policy, then produce for every sheet index the list of per-slot
placements (in the slot list's reading order). `none` models the
`ValueError` Python's `min`/`max` raise on an empty source list. -/
def compose_sheets (sources : List Source) (slots : List Slot)
    (stop_mode : String) (zoom : ℚ) (align : String) :
    Option (List (List (Option Placement))) :=
  (total_sheets stop_mode (sources.map (fun r => r.pages.length))).map
    (fun total =>
      (List.range total).map
        (fun i => slots.enum.map (fun p => fill_slot sources i p.1 p.2 zoom align)))

/-- Lines 255-274 of `build_writer_2up`: the sheet dimensions (the
preset is swapped to force landscape) and the two slots, left then
right. `none` when the sheet-size token is unknown. -/
def layout_2up (sheet_size : String) (margin_in gutter_in : ℚ) :
    Option (ℚ × ℚ × List Slot) :=
  match SHEET_SIZES sheet_size with
  | none => none
  | some (base_w, base_h) =>
    let W := base_h
    let H := base_w
    let margin := margin_in * PT_PER_IN
    let gutter := gutter_in * PT_PER_IN
    let content_w := W - 2 * margin - gutter
    let content_h := H - 2 * margin
    let slot_w := content_w / 2
    let slot_h := content_h
    some (W, H,
      [⟨margin, margin, slot_w, slot_h⟩,
       ⟨margin + slot_w + gutter, margin, slot_w, slot_h⟩])

/-- Lines 315-339 of `build_writer_4up`: sheet dimensions (swapped only
on the explicit `"landscape"` token) and the four slots in reading
order TL, TR, BL, BR. -/
def layout_4up (sheet_size orient : String)
    (margin_in gutter_x_in gutter_y_in : ℚ) : Option (ℚ × ℚ × List Slot) :=
  match SHEET_SIZES sheet_size with
  | none => none
  | some (base_w, base_h) =>
    let W := if orient = "landscape" then base_h else base_w
    let H := if orient = "landscape" then base_w else base_h
    let margin := margin_in * PT_PER_IN
    let gutter_x := gutter_x_in * PT_PER_IN
    let gutter_y := gutter_y_in * PT_PER_IN
    let content_w := W - 2 * margin - gutter_x
    let content_h := H - 2 * margin - gutter_y
    let slot_w := content_w / 2
    let slot_h := content_h / 2
    some (W, H,
      [⟨margin, margin + slot_h + gutter_y, slot_w, slot_h⟩,
       ⟨margin + slot_w + gutter_x, margin + slot_h + gutter_y, slot_w, slot_h⟩,
       ⟨margin, margin, slot_w, slot_h⟩,
       ⟨margin + slot_w + gutter_x, margin, slot_w, slot_h⟩])

/-- `build_writer_2up`: raises `ValueError` (here `.error`) only for an
unknown sheet-size token, then composes every sheet. The result is the
sheet width, sheet height and the per-sheet slot placements. -/
def build_writer_2up (sources : List Source) (sheet_size align stop_mode : String)
    (margin_in gutter_in zoom : ℚ) :
    Except String (ℚ × ℚ × List (List (Option Placement))) :=
  match layout_2up sheet_size margin_in gutter_in with
  | none => .error ("Unknown sheet size: " ++ sheet_size)
  | some (W, H, slots) =>
    match compose_sheets sources slots stop_mode zoom align with
    | none => .error "max() arg is an empty sequence"
    | some sheets => .ok (W, H, sheets)

/-- `build_writer_4up`: same structure as `build_writer_2up` over the
2x2 slot grid. -/
def build_writer_4up (sources : List Source) (sheet_size orient align stop_mode : String)
    (margin_in gutter_x_in gutter_y_in zoom : ℚ) :
    Except String (ℚ × ℚ × List (List (Option Placement))) :=
  match layout_4up sheet_size orient margin_in gutter_x_in gutter_y_in with
  | none => .error ("Unknown sheet size: " ++ sheet_size)
  | some (W, H, slots) =>
    match compose_sheets sources slots stop_mode zoom align with
    | none => .error "max() arg is an empty sequence"
    | some sheets => .ok (W, H, sheets)

theorem effective_scale_of_nonpos (b zoom : ℚ) (h : zoom ≤ 0) :
    effective_scale b zoom = b := by
  simp [effective_scale, h]

theorem effective_scale_of_pos (b zoom : ℚ) (h : 0 < zoom) :
    effective_scale b zoom = min (b * zoom) b := by
  have h0 : ¬ zoom ≤ 0 := not_le.mpr h
  simp only [effective_scale, h0, if_false]
  rcases le_or_lt (b * zoom) b with h1 | h1
  · rw [if_neg (not_lt.mpr h1), min_eq_left h1]
  · rw [if_pos h1, min_eq_right (le_of_lt h1)]

theorem place_page_scale_eq (slot_x slot_y slot_w slot_h zoom : ℚ) (align : String)
    (page : SrcPage) :
    (place_page slot_x slot_y slot_w slot_h zoom align page).scale =
      effective_scale
        (base_scale slot_w slot_h (compute_upright_size page).1 (compute_upright_size page).2.1)
        zoom := rfl

/-- Claim C1: for positive content dimensions the fit scale equals
`min(slotWidth/contentWidth, slotHeight/contentHeight)`, and the scaled
content never overflows the slot:
`contentWidth * scale ≤ slotWidth` and `contentHeight * scale ≤ slotHeight`. -/
theorem fit_scale_spec (slot_w slot_h src_w src_h : ℚ)
    (hcw : 0 < src_w) (hch : 0 < src_h) :
    base_scale slot_w slot_h src_w src_h = min (slot_w / src_w) (slot_h / src_h) ∧
    src_w * base_scale slot_w slot_h src_w src_h ≤ slot_w ∧
    src_h * base_scale slot_w slot_h src_w src_h ≤ slot_h := by
  refine ⟨rfl, ?_, ?_⟩
  · calc src_w * base_scale slot_w slot_h src_w src_h
        ≤ src_w * (slot_w / src_w) :=
          mul_le_mul_of_nonneg_left (min_le_left _ _) (le_of_lt hcw)
      _ = slot_w := by field_simp
  · calc src_h * base_scale slot_w slot_h src_w src_h
        ≤ src_h * (slot_h / src_h) :=
          mul_le_mul_of_nonneg_left (min_le_right _ _) (le_of_lt hch)
      _ = slot_h := by field_simp

theorem fit_scale_spec_witness :
    ((0:ℚ) < 4 ∧ (0:ℚ) < 2) ∧
    (base_scale 10 5 4 2 = min (10 / 4) (5 / 2) ∧
      4 * base_scale 10 5 4 2 ≤ 10 ∧ 2 * base_scale 10 5 4 2 ≤ 5) :=
  ⟨⟨by norm_num, by norm_num⟩, fit_scale_spec 10 5 4 2 (by norm_num) (by norm_num)⟩

/-- Claim C2: for every page, slot and zoom, a zoom ≤ 0 leaves the
placement scale at the best-fit base scale (it behaves as 1.0), and a
zoom > 0 yields `baseScale * zoom` clamped so it never exceeds
`baseScale` (zoom > 1.0 is silently capped to exactly best-fit). -/
theorem zoom_clamp_spec (slot_x slot_y slot_w slot_h zoom : ℚ) (align : String)
    (page : SrcPage) :
    (zoom ≤ 0 → (place_page slot_x slot_y slot_w slot_h zoom align page).scale =
      base_scale slot_w slot_h (compute_upright_size page).1 (compute_upright_size page).2.1) ∧
    (0 < zoom → (place_page slot_x slot_y slot_w slot_h zoom align page).scale =
      min (base_scale slot_w slot_h (compute_upright_size page).1 (compute_upright_size page).2.1 * zoom)
        (base_scale slot_w slot_h (compute_upright_size page).1 (compute_upright_size page).2.1)) := by
  rw [place_page_scale_eq]
  exact ⟨effective_scale_of_nonpos _ zoom, effective_scale_of_pos _ zoom⟩

theorem zoom_clamp_spec_witness :
    (0:ℚ) < 2 ∧
    (place_page 0 0 10 10 2 "center" ⟨4, 2, none⟩).scale =
      min (base_scale 10 10 (compute_upright_size (⟨4, 2, none⟩ : SrcPage)).1
            (compute_upright_size (⟨4, 2, none⟩ : SrcPage)).2.1 * 2)
        (base_scale 10 10 (compute_upright_size (⟨4, 2, none⟩ : SrcPage)).1
            (compute_upright_size (⟨4, 2, none⟩ : SrcPage)).2.1) :=
  ⟨by norm_num, (zoom_clamp_spec 0 0 10 10 2 "center" ⟨4, 2, none⟩).2 (by norm_num)⟩

/-- Claim C5: `compute_upright_size` returns the media rectangle
unchanged for rotation 0 or 180, swaps width and height for 90 or 270,
and falls back to rotation 0 with unswapped dimensions when the
rotation metadata is absent or malformed (modelled by `none`). -/
theorem upright_size_cases (page : SrcPage) :
    (page.rot = some 0 → compute_upright_size page = (page.mediaW, page.mediaH, 0)) ∧
    (page.rot = some 180 → compute_upright_size page = (page.mediaW, page.mediaH, 180)) ∧
    (page.rot = some 90 → compute_upright_size page = (page.mediaH, page.mediaW, 90)) ∧
    (page.rot = some 270 → compute_upright_size page = (page.mediaH, page.mediaW, 270)) ∧
    (page.rot = none → compute_upright_size page = (page.mediaW, page.mediaH, 0)) := by
  refine ⟨?_, ?_, ?_, ?_, ?_⟩
  all_goals intro h
  all_goals simp [compute_upright_size, h]

theorem upright_size_cases_witness :
    (⟨3, 5, some 90⟩ : SrcPage).rot = some 90 ∧
    compute_upright_size ⟨3, 5, some 90⟩ = (5, 3, 90) :=
  ⟨rfl, (upright_size_cases ⟨3, 5, some 90⟩).2.2.1 rfl⟩

/-- Claim C7: for every declared rotation in {0, 90, 180, 270}, the
transform handed to the merge operation is the composition, in exactly
this order, of a rotation by the negated rotation, then a uniform scale,
then a translation by the computed offsets. -/
theorem transform_order (rot : ℤ) (s x y : ℚ)
    (h : rot = 0 ∨ rot = 90 ∨ rot = 180 ∨ rot = 270) :
    place_transform rot s x y =
      ((rotationM (-rot)).mul (scaleM s)).mul (translationM x y) := by
  rcases h with h | h | h | h
  all_goals subst h
  all_goals
    simp [place_transform, Transformation.rotate, Transformation.scale,
      Transformation.translate, Transformation.mul, Transformation.ident,
      rotationM, scaleM, translationM, cosDeg, sinDeg, Transformation.mk.injEq]
  all_goals norm_num

theorem transform_order_witness :
    ((90:ℤ) = 0 ∨ (90:ℤ) = 90 ∨ (90:ℤ) = 180 ∨ (90:ℤ) = 270) ∧
    place_transform 90 2 3 5 = ((rotationM (-90)).mul (scaleM 2)).mul (translationM 3 5) :=
  ⟨Or.inr (Or.inl rfl), transform_order 90 2 3 5 (Or.inr (Or.inl rfl))⟩

/-- Claim C8: for every slot, page, zoom and alignment token the
horizontal placement offset is
`slotX + (slotWidth - scaledContentWidth)/2` — unconditionally, since
alignment touches only the vertical axis — and whenever the slot is
strictly taller than the scaled content the vertical offsets are
monotone: top ≥ center ≥ bottom. -/
theorem align_offsets_spec (slot_x slot_y slot_w slot_h zoom : ℚ) (align : String)
    (page : SrcPage) :
    ((place_page slot_x slot_y slot_w slot_h zoom align page).xOffset =
      slot_x + (slot_w - (compute_upright_size page).1 *
        (place_page slot_x slot_y slot_w slot_h zoom align page).scale) / 2) ∧
    ((compute_upright_size page).2.1 *
        (place_page slot_x slot_y slot_w slot_h zoom align page).scale < slot_h →
      (place_page slot_x slot_y slot_w slot_h zoom "center" page).yOffset ≤
        (place_page slot_x slot_y slot_w slot_h zoom "top" page).yOffset ∧
      (place_page slot_x slot_y slot_w slot_h zoom "bottom" page).yOffset ≤
        (place_page slot_x slot_y slot_w slot_h zoom "center" page).yOffset) := by
  refine ⟨rfl, ?_⟩
  intro h
  refine ⟨?_, ?_⟩
  all_goals
    show y_offset_of _ slot_y slot_h (compute_upright_size page).2.1
        (effective_scale _ zoom) ≤
      y_offset_of _ slot_y slot_h (compute_upright_size page).2.1
        (effective_scale _ zoom)
  all_goals
    have hs : (compute_upright_size page).2.1 *
        effective_scale (base_scale slot_w slot_h (compute_upright_size page).1
          (compute_upright_size page).2.1) zoom < slot_h := h
  all_goals simp only [y_offset_of, if_pos, if_neg, String.reduceEq, reduceIte]
  all_goals linarith

theorem align_offsets_spec_witness :
    ((compute_upright_size (⟨4, 2, none⟩ : SrcPage)).2.1 *
        (place_page 0 0 10 10 1 "top" ⟨4, 2, none⟩).scale < 10) ∧
    (((place_page 0 0 10 10 1 "top" ⟨4, 2, none⟩).xOffset =
        0 + (10 - (compute_upright_size (⟨4, 2, none⟩ : SrcPage)).1 *
          (place_page 0 0 10 10 1 "top" ⟨4, 2, none⟩).scale) / 2) ∧
      ((place_page 0 0 10 10 1 "center" ⟨4, 2, none⟩).yOffset ≤
        (place_page 0 0 10 10 1 "top" ⟨4, 2, none⟩).yOffset ∧
      (place_page 0 0 10 10 1 "bottom" ⟨4, 2, none⟩).yOffset ≤
        (place_page 0 0 10 10 1 "center" ⟨4, 2, none⟩).yOffset)) := by
  have hs : (compute_upright_size (⟨4, 2, none⟩ : SrcPage)).2.1 *
      (place_page 0 0 10 10 1 "top" ⟨4, 2, none⟩).scale < 10 := by
    norm_num [place_page, compute_upright_size, base_scale, effective_scale,
      x_offset_of, y_offset_of]
  have hc := align_offsets_spec 0 0 10 10 1 "top" ⟨4, 2, none⟩
  exact ⟨hs, hc.1, hc.2 hs⟩

theorem foldl_min_le_init (l : List ℕ) : ∀ a : ℕ, l.foldl min a ≤ a := by
  induction l with
  | nil => intro a; exact le_refl a
  | cons b t ih =>
    intro a
    exact le_trans (ih (min a b)) (min_le_left a b)

theorem foldl_min_le_mem (l : List ℕ) : ∀ a : ℕ, ∀ c ∈ l, l.foldl min a ≤ c := by
  induction l with
  | nil => intro a c hc; simp at hc
  | cons b t ih =>
    intro a c hc
    rcases List.mem_cons.mp hc with h | h
    · subst h
      exact le_trans (foldl_min_le_init t (min a c)) (min_le_right a c)
    · exact ih (min a b) c h

theorem foldl_min_mem_cons (l : List ℕ) : ∀ a : ℕ, l.foldl min a ∈ a :: l := by
  induction l with
  | nil => intro a; exact List.mem_singleton.mpr rfl
  | cons b t ih =>
    intro a
    simp only [List.foldl_cons]
    rcases List.mem_cons.mp (ih (min a b)) with h | h
    · rcases le_total a b with hab | hba
      · rw [h, min_eq_left hab]; exact List.mem_cons_self _ _
      · rw [h, min_eq_right hba]
        exact List.mem_cons_of_mem _ (List.mem_cons_self _ _)
    · exact List.mem_cons_of_mem _ (List.mem_cons_of_mem _ h)

theorem foldl_max_init_le (l : List ℕ) : ∀ a : ℕ, a ≤ l.foldl max a := by
  induction l with
  | nil => intro a; exact le_refl a
  | cons b t ih =>
    intro a
    exact le_trans (le_max_left a b) (ih (max a b))

theorem foldl_max_mem_le (l : List ℕ) : ∀ a : ℕ, ∀ c ∈ l, c ≤ l.foldl max a := by
  induction l with
  | nil => intro a c hc; simp at hc
  | cons b t ih =>
    intro a c hc
    rcases List.mem_cons.mp hc with h | h
    · subst h
      exact le_trans (le_max_right a c) (foldl_max_init_le t (max a c))
    · exact ih (max a b) c h

theorem foldl_max_mem_cons (l : List ℕ) : ∀ a : ℕ, l.foldl max a ∈ a :: l := by
  induction l with
  | nil => intro a; exact List.mem_singleton.mpr rfl
  | cons b t ih =>
    intro a
    simp only [List.foldl_cons]
    rcases List.mem_cons.mp (ih (max a b)) with h | h
    · rcases le_total a b with hab | hba
      · rw [h, max_eq_right hab]
        exact List.mem_cons_of_mem _ (List.mem_cons_self _ _)
      · rw [h, max_eq_left hba]; exact List.mem_cons_self _ _
    · exact List.mem_cons_of_mem _ (List.mem_cons_of_mem _ h)

theorem pyMin_spec (l : List ℕ) (h : l ≠ []) :
    ∃ m, pyMin l = some m ∧ m ∈ l ∧ ∀ c ∈ l, m ≤ c := by
  match l with
  | [] => exact absurd rfl h
  | a :: t =>
    refine ⟨t.foldl min a, rfl, foldl_min_mem_cons t a, ?_⟩
    intro c hc
    rcases List.mem_cons.mp hc with hce | hct
    · subst hce; exact foldl_min_le_init t c
    · exact foldl_min_le_mem t a c hct

theorem pyMax_spec (l : List ℕ) (h : l ≠ []) :
    ∃ m, pyMax l = some m ∧ m ∈ l ∧ ∀ c ∈ l, c ≤ m := by
  match l with
  | [] => exact absurd rfl h
  | a :: t =>
    refine ⟨t.foldl max a, rfl, foldl_max_mem_cons t a, ?_⟩
    intro c hc
    rcases List.mem_cons.mp hc with hce | hct
    · subst hce; exact foldl_max_init_le t c
    · exact foldl_max_mem_le t a c hct

/-- Claim C3: on a non-empty source list the sheet loop runs, and the
number of sheets produced is the maximum of the source page counts
under the `"longest"` stop policy and their minimum under
`"shortest"` (stated as: the length is one of the counts, and is an
upper resp. lower bound of all of them). -/
theorem stop_policy_counts (sources : List Source) (slots : List Slot)
    (zoom : ℚ) (align : String) (h : sources ≠ []) :
    (∃ out, compose_sheets sources slots "longest" zoom align = some out ∧
      out.length ∈ sources.map (fun r => r.pages.length) ∧
      ∀ c ∈ sources.map (fun r => r.pages.length), c ≤ out.length) ∧
    (∃ out, compose_sheets sources slots "shortest" zoom align = some out ∧
      out.length ∈ sources.map (fun r => r.pages.length) ∧
      ∀ c ∈ sources.map (fun r => r.pages.length), out.length ≤ c) := by
  have hc : sources.map (fun r => r.pages.length) ≠ [] := by
    simpa [List.map_eq_nil_iff] using h
  constructor
  · obtain ⟨m, hm, hmem, hle⟩ := pyMax_spec _ hc
    refine ⟨(List.range m).map
      (fun i => slots.enum.map (fun p => fill_slot sources i p.1 p.2 zoom align)),
      ?_, ?_, ?_⟩
    · have ht : total_sheets "longest" (sources.map (fun r => r.pages.length)) = some m := by
        rw [total_sheets, if_neg (by decide)]; exact hm
      simp [compose_sheets, ht]
    · simpa using hmem
    · intro c hcm
      simpa using hle c hcm
  · obtain ⟨m, hm, hmem, hle⟩ := pyMin_spec _ hc
    refine ⟨(List.range m).map
      (fun i => slots.enum.map (fun p => fill_slot sources i p.1 p.2 zoom align)),
      ?_, ?_, ?_⟩
    · have ht : total_sheets "shortest" (sources.map (fun r => r.pages.length)) = some m := by
        rw [total_sheets, if_pos rfl]; exact hm
      simp [compose_sheets, ht]
    · simpa using hmem
    · intro c hcm
      simpa using hle c hcm

theorem stop_policy_counts_witness :
    ([⟨[⟨1, 1, none⟩]⟩, ⟨[⟨1, 1, none⟩, ⟨2, 2, none⟩, ⟨3, 3, none⟩]⟩] : List Source) ≠ [] ∧
    ((∃ out, compose_sheets [⟨[⟨1, 1, none⟩]⟩, ⟨[⟨1, 1, none⟩, ⟨2, 2, none⟩, ⟨3, 3, none⟩]⟩]
        [⟨0, 0, 1, 1⟩] "longest" 1 "center" = some out ∧
      out.length ∈ ([⟨[⟨1, 1, none⟩]⟩, ⟨[⟨1, 1, none⟩, ⟨2, 2, none⟩, ⟨3, 3, none⟩]⟩] : List Source).map
        (fun r => r.pages.length) ∧
      ∀ c ∈ ([⟨[⟨1, 1, none⟩]⟩, ⟨[⟨1, 1, none⟩, ⟨2, 2, none⟩, ⟨3, 3, none⟩]⟩] : List Source).map
        (fun r => r.pages.length), c ≤ out.length) ∧
    (∃ out, compose_sheets [⟨[⟨1, 1, none⟩]⟩, ⟨[⟨1, 1, none⟩, ⟨2, 2, none⟩, ⟨3, 3, none⟩]⟩]
        [⟨0, 0, 1, 1⟩] "shortest" 1 "center" = some out ∧
      out.length ∈ ([⟨[⟨1, 1, none⟩]⟩, ⟨[⟨1, 1, none⟩, ⟨2, 2, none⟩, ⟨3, 3, none⟩]⟩] : List Source).map
        (fun r => r.pages.length) ∧
      ∀ c ∈ ([⟨[⟨1, 1, none⟩]⟩, ⟨[⟨1, 1, none⟩, ⟨2, 2, none⟩, ⟨3, 3, none⟩]⟩] : List Source).map
        (fun r => r.pages.length), out.length ≤ c)) :=
  ⟨List.cons_ne_nil _ _,
    stop_policy_counts _ [⟨0, 0, 1, 1⟩] 1 "center" (List.cons_ne_nil _ _)⟩

/-- Claim C4: slot index `i` is supplied by source
`min(i, sourceCount - 1)`, and on a non-empty source list every slot
index at or beyond the source count resolves to the last source. -/
theorem slot_source_clamp (sources : List Source) (i : ℕ) (_h : sources ≠ []) :
    assigned_source_index i sources.length = min i (sources.length - 1) ∧
    (sources.length ≤ i →
      sources[assigned_source_index i sources.length]? = sources.getLast?) := by
  refine ⟨rfl, ?_⟩
  intro hi
  have hmin : assigned_source_index i sources.length = sources.length - 1 :=
    min_eq_right (le_trans (Nat.sub_le _ _) hi)
  rw [hmin, List.getLast?_eq_getElem?]

theorem slot_source_clamp_witness :
    (([⟨[]⟩, ⟨[⟨1, 1, none⟩]⟩] : List Source) ≠ [] ∧
      ([⟨[]⟩, ⟨[⟨1, 1, none⟩]⟩] : List Source).length ≤ 5) ∧
    (assigned_source_index 5 ([⟨[]⟩, ⟨[⟨1, 1, none⟩]⟩] : List Source).length =
        min 5 (([⟨[]⟩, ⟨[⟨1, 1, none⟩]⟩] : List Source).length - 1) ∧
      ([⟨[]⟩, ⟨[⟨1, 1, none⟩]⟩] : List Source)[assigned_source_index 5
          ([⟨[]⟩, ⟨[⟨1, 1, none⟩]⟩] : List Source).length]? =
        ([⟨[]⟩, ⟨[⟨1, 1, none⟩]⟩] : List Source).getLast?) := by
  have h1 : ([⟨[]⟩, ⟨[⟨1, 1, none⟩]⟩] : List Source) ≠ [] := List.cons_ne_nil _ _
  have hc := slot_source_clamp [⟨[]⟩, ⟨[⟨1, 1, none⟩]⟩] 5 h1
  exact ⟨⟨h1, by norm_num⟩, ⟨hc.1, hc.2 (by norm_num)⟩⟩

/-- Claim C10: under the `"shortest"` stop policy on a non-empty source
list, every slot of every produced sheet receives a placement — no slot
is ever left blank, since the sheet total never exceeds any assigned
source's page count. -/
theorem shortest_fills_all (sources : List Source) (slots : List Slot)
    (zoom : ℚ) (align : String) (h : sources ≠ []) :
    ∀ out, compose_sheets sources slots "shortest" zoom align = some out →
      ∀ sheet ∈ out, ∀ f ∈ sheet, f.isSome = true := by
  intro out hout sheet hsheet f hf
  have hc : sources.map (fun r => r.pages.length) ≠ [] := by
    simpa [List.map_eq_nil_iff] using h
  obtain ⟨m, hm, hmem, hle⟩ := pyMin_spec _ hc
  have ht : total_sheets "shortest" (sources.map (fun r => r.pages.length)) = some m := by
    rw [total_sheets, if_pos rfl]; exact hm
  have hout2 : out = (List.range m).map
      (fun i => slots.enum.map (fun p => fill_slot sources i p.1 p.2 zoom align)) := by
    have hcs : compose_sheets sources slots "shortest" zoom align = some ((List.range m).map
        (fun i => slots.enum.map (fun p => fill_slot sources i p.1 p.2 zoom align))) := by
      simp [compose_sheets, ht]
    rw [hout] at hcs
    exact (Option.some.injEq _ _ ▸ hcs : _)
  subst hout2
  obtain ⟨i, hi, rfl⟩ := List.mem_map.mp hsheet
  obtain ⟨p, hp, rfl⟩ := List.mem_map.mp hf
  have him : i < m := List.mem_range.mp hi
  have hn : 0 < sources.length := List.length_pos.mpr h
  have hidx : assigned_source_index p.1 sources.length < sources.length :=
    lt_of_le_of_lt (min_le_right _ _) (Nat.sub_lt hn one_pos)
  have hcnt : m ≤ (sources.getD (assigned_source_index p.1 sources.length) ⟨[]⟩).pages.length := by
    have hg : sources.getD (assigned_source_index p.1 sources.length) ⟨[]⟩ =
        sources.get ⟨assigned_source_index p.1 sources.length, hidx⟩ := by
      rw [List.getD_eq_getElem?_getD, List.getElem?_eq_getElem hidx]
      rfl
    rw [hg]
    refine hle _ ?_
    have hmap : (sources.get ⟨assigned_source_index p.1 sources.length, hidx⟩).pages.length =
        (sources.map (fun r => r.pages.length)).get
          ⟨assigned_source_index p.1 sources.length, by simpa using hidx⟩ := by
      simp
    rw [hmap]
    exact List.get_mem _ _ _
  have hip : i < (sources.getD (assigned_source_index p.1 sources.length) ⟨[]⟩).pages.length :=
    lt_of_lt_of_le him hcnt
  simp only [fill_slot, assigned_source_index] at *
  rw [List.getElem?_eq_getElem hip]
  rfl

theorem shortest_fills_all_witness :
    ([⟨[⟨1, 1, none⟩]⟩] : List Source) ≠ [] ∧
    (some (place_page 0 0 1 1 1 "bottom" ⟨1, 1, none⟩)).isSome = true :=
  ⟨List.cons_ne_nil _ _,
    shortest_fills_all [⟨[⟨1, 1, none⟩]⟩] [⟨0, 0, 1, 1⟩] 1 "bottom" (List.cons_ne_nil _ _)
      [[some (place_page 0 0 1 1 1 "bottom" ⟨1, 1, none⟩)]] rfl
      [some (place_page 0 0 1 1 1 "bottom" ⟨1, 1, none⟩)] (List.mem_singleton.mpr rfl)
      (some (place_page 0 0 1 1 1 "bottom" ⟨1, 1, none⟩)) (List.mem_singleton.mpr rfl)⟩

theorem compose_sheets_isSome (sources : List Source) (slots : List Slot)
    (stop : String) (zoom : ℚ) (align : String) (h : sources ≠ []) :
    ∃ out, compose_sheets sources slots stop zoom align = some out := by
  have hc : sources.map (fun r => r.pages.length) ≠ [] := by
    simpa [List.map_eq_nil_iff] using h
  obtain ⟨a, t, he⟩ := List.exists_cons_of_ne_nil hc
  rw [compose_sheets, total_sheets]
  by_cases hs : stop = "shortest"
  · rw [if_pos hs, he, pyMin]
    exact ⟨_, rfl⟩
  · rw [if_neg hs, he, pyMax]
    exact ⟨_, rfl⟩

/-- Claim C6, counterexample: the configuration (letter sheet, 2-up,
margin 10 in, gutter 0) yields a negative slot width (-324 pt), yet the
run is not rejected: `build_writer_2up` succeeds and produces a sheet.
This refutes the claim that non-positive slot dimensions are detected
as a configuration error before composition. -/
theorem nonpositive_slots_not_rejected :
    (layout_2up "letter" 10 0).map (fun p => p.2.2.map (fun s => s.w)) =
      some [-324, -324] ∧
    ((-324 : ℚ) ≤ 0) ∧
    (build_writer_2up [⟨[⟨612, 792, none⟩]⟩] "letter" "center" "longest" 10 0 1).toOption.map
      (fun p => p.2.2.length) = some 1 := by
  refine ⟨?_, by norm_num, by decide⟩
  norm_num [layout_2up, SHEET_SIZES, PT_PER_IN]

/-- Claim C6, amended: only an unrecognised sheet-size token makes the
2-up builder fail, with an error raised before any sheet is composed;
for a recognised sheet size the builder always succeeds and produces
sheets on a non-empty source list, even when the margins and gutters
yield non-positive slot dimensions. (Unrecognised mode, orientation,
alignment and stop-policy tokens are rejected by the CLI argument
parsing layer, not here; the builders fall back to centre alignment and
the longest policy for unknown tokens.) -/
theorem build2up_error_only_unknown_sheet (sources : List Source)
    (sheet align stop : String) (m g z : ℚ) (h : sources ≠ []) :
    (SHEET_SIZES sheet = none →
      build_writer_2up sources sheet align stop m g z =
        .error ("Unknown sheet size: " ++ sheet)) ∧
    (∀ wh, SHEET_SIZES sheet = some wh → ∃ W H sheets,
      build_writer_2up sources sheet align stop m g z = .ok (W, H, sheets)) := by
  constructor
  · intro hs
    rw [build_writer_2up, layout_2up, hs]
  · intro wh hs
    obtain ⟨w1, h1⟩ := wh
    obtain ⟨out, hout⟩ := compose_sheets_isSome sources
      [⟨m * PT_PER_IN, m * PT_PER_IN, (h1 - 2 * (m * PT_PER_IN) - g * PT_PER_IN) / 2,
         w1 - 2 * (m * PT_PER_IN)⟩,
       ⟨m * PT_PER_IN + (h1 - 2 * (m * PT_PER_IN) - g * PT_PER_IN) / 2 + g * PT_PER_IN,
         m * PT_PER_IN, (h1 - 2 * (m * PT_PER_IN) - g * PT_PER_IN) / 2,
         w1 - 2 * (m * PT_PER_IN)⟩]
      stop z align h
    refine ⟨h1, w1, out, ?_⟩
    simp only [build_writer_2up, layout_2up, hs, hout]

theorem build2up_error_only_unknown_sheet_witness :
    (([⟨[]⟩] : List Source) ≠ [] ∧ SHEET_SIZES "a4" = some (595, 842)) ∧
    (∃ W H sheets,
      build_writer_2up [⟨[]⟩] "a4" "center" "longest" 0 0 1 = .ok (W, H, sheets)) := by
  have h1 : ([⟨[]⟩] : List Source) ≠ [] := List.cons_ne_nil _ _
  have h2 : SHEET_SIZES "a4" = some (595, 842) := by decide
  exact ⟨⟨h1, h2⟩,
    (build2up_error_only_unknown_sheet [⟨[]⟩] "a4" "center" "longest" 0 0 1 h1).2 (595, 842) h2⟩

/-- Claim C9: for every recognised sheet-size preset the 2-up layout is
landscape (height < width) and consists of exactly two slots, left then
right, each of width `(sheetWidth - 2*margin - gutter)/2` and height
`sheetHeight - 2*margin`, with the right slot shifted from the left one
by a slot width plus the gutter. -/
theorem layout_2up_spec (sheet : String) (m g : ℚ) (wh : ℚ × ℚ)
    (h : SHEET_SIZES sheet = some wh) :
    ∃ W H, layout_2up sheet m g = some (W, H,
        [⟨m * PT_PER_IN, m * PT_PER_IN, (W - 2 * (m * PT_PER_IN) - g * PT_PER_IN) / 2,
          H - 2 * (m * PT_PER_IN)⟩,
         ⟨m * PT_PER_IN + (W - 2 * (m * PT_PER_IN) - g * PT_PER_IN) / 2 + g * PT_PER_IN,
          m * PT_PER_IN, (W - 2 * (m * PT_PER_IN) - g * PT_PER_IN) / 2,
          H - 2 * (m * PT_PER_IN)⟩]) ∧
      H < W := by
  by_cases h1 : sheet = "letter"
  · subst h1
    exact ⟨11 * PT_PER_IN, 8.5 * PT_PER_IN, rfl, by norm_num [PT_PER_IN]⟩
  · by_cases h2 : sheet = "a4"
    · subst h2
      exact ⟨842, 595, rfl, by norm_num⟩
    · exfalso
      rw [SHEET_SIZES, if_neg h1, if_neg h2] at h
      exact Option.noConfusion h

theorem layout_2up_spec_witness :
    SHEET_SIZES "letter" = some (8.5 * PT_PER_IN, 11 * PT_PER_IN) ∧
    (∃ W H, layout_2up "letter" 1 (1 / 2) = some (W, H,
        [⟨1 * PT_PER_IN, 1 * PT_PER_IN, (W - 2 * (1 * PT_PER_IN) - (1 / 2) * PT_PER_IN) / 2,
          H - 2 * (1 * PT_PER_IN)⟩,
         ⟨1 * PT_PER_IN + (W - 2 * (1 * PT_PER_IN) - (1 / 2) * PT_PER_IN) / 2 + (1 / 2) * PT_PER_IN,
          1 * PT_PER_IN, (W - 2 * (1 * PT_PER_IN) - (1 / 2) * PT_PER_IN) / 2,
          H - 2 * (1 * PT_PER_IN)⟩]) ∧
      H < W) := by
  have h2 : SHEET_SIZES "letter" = some (8.5 * PT_PER_IN, 11 * PT_PER_IN) := rfl
  exact ⟨h2, layout_2up_spec "letter" 1 (1 / 2) (8.5 * PT_PER_IN, 11 * PT_PER_IN) h2⟩
